import Mathlib

/-!
Shallow embedding of the queue engine in src/queue/uQueue.go (package queue of
github.com/buaazp/uq). The engine file is the authority for every definition
below whose Go counterpart lives in it; the topic and line internals
(topic.go, line.go, entity.go of the same package) are not part of the
available sources and are modelled from the specification where needed, as
marked on each such definition.

Modelling conventions:
- Go maps (map[string]*topic, map[string]*line) become association lists with
  read (alookup), assignment (aupdate) and delete (aerase); iteration order of
  the unordered Go map is fixed to list order.
- The pluggable storage adapter (store.Storage with Get/Set/Del/Close) becomes
  a structure holding the current contents per key and a set-failure oracle;
  Set either fails (state unchanged) or updates the contents.
- Byte slices are modelled by the inductive Bytes: empty (length 0), a valid
  gob encoding of one of the three record types, a raw payload, or corrupt
  non-empty data that fails to decode. The gob codec of the three record
  structs is modelled as the perfect codec on these constructors: encoding is
  Bytes.enc and decoding succeeds exactly on a matching encoded record.
- Goroutines and channels are projected to flags: topic.started records that
  the background loop was started, topic.quitClosed that its quit channel was
  closed; time.Now becomes an explicit now parameter.
- Go errors are strings (the code builds every engine error with errors.New
  on a string constant and storage errors are opaque).
-/

namespace UQ

abbrev Err := String

/-- Constants from uQueue.go. -/
def StorageKeyWord : String := "UnitedQueueKey"

def ErrTopicNotExisted : Err := "Topic Not Existed"

def ErrLineNotExisted : Err := "Line Not Existed"

def ErrTopicExisted : Err := "Topic Has Existed"

def ErrLineExisted : Err := "Line Has Existed"

def ErrNotDelivered : Err := "Message Not Delivered"

def ErrKey : Err := "Key Illegal"

def ErrNone : Err := "No Message"

/-- Association-list read, modelling a Go map read m[k]. -/
def alookup {α : Type} : List (String × α) → String → Option α
  | [], _ => none
  | (k, v) :: rest, key => if k = key then some v else alookup rest key

/-- Association-list delete, modelling Go delete(m, k). -/
def aerase {α : Type} (m : List (String × α)) (key : String) : List (String × α) :=
  m.filter (fun p => p.1 ≠ key)

/-- Association-list assignment, modelling Go m[k] = v. -/
def aupdate {α : Type} (m : List (String × α)) (key : String) (v : α) :
    List (String × α) :=
  aerase m key ++ [(key, v)]

/-- Record gob-encoded under the engine key: unitedQueueStore in uQueue.go. -/
structure unitedQueueStore where
  Topics : List String
  deriving Repr, DecidableEq

/-- Record gob-encoded under a topic-name key. The struct is declared in the
unavailable topic.go; its fields Head, Tail, Lines are fixed by their uses in
uQueue.go (loadTopic) and by the spec record layout. -/
structure topicStore where
  Head : Nat
  Tail : Nat
  Lines : List String
  deriving Repr, DecidableEq

/-- Record gob-encoded under a topic/line key. Modelled from the spec: the
line record persists the cursor, the recycle timeout and the in-flight
offset/deadline pairs. -/
structure lineStore where
  Head : Nat
  Recycle : Nat
  Inflight : List (Nat × Nat)
  deriving Repr, DecidableEq

/-- Value carried by a valid gob encoding in storage. -/
inductive GobValue where
  | queueRec (q : unitedQueueStore)
  | topicRec (t : topicStore)
  | lineRec (l : lineStore)
  deriving Repr, DecidableEq

/-- Model of a Go byte slice held in storage: empty slice, a valid gob
encoding of a record, a raw message payload, or non-empty undecodable data. -/
inductive Bytes where
  | empty
  | enc (v : GobValue)
  | raw (data : List Nat)
  | corrupt (tag : Nat)
  deriving Repr, DecidableEq

/-- Gob encoding of the engine record (gob.Encoder.Encode in exportQueue). -/
def encodeQueue (q : unitedQueueStore) : Bytes := .enc (.queueRec q)

/-- Gob encoding of a topic record. -/
def encodeTopic (t : topicStore) : Bytes := .enc (.topicRec t)

/-- Gob encoding of a line record. -/
def encodeLine (l : lineStore) : Bytes := .enc (.lineRec l)

/-- Gob decoding of an engine record (gob.Decoder.Decode in loadQueue):
succeeds exactly on a valid encoding of this record type. -/
def decodeQueue : Bytes → Option unitedQueueStore
  | .enc (.queueRec q) => some q
  | _ => none

/-- Gob decoding of a topic record (dec2.Decode in loadQueue). -/
def decodeTopic : Bytes → Option topicStore
  | .enc (.topicRec t) => some t
  | _ => none

/-- Gob decoding of a line record (dec3.Decode in loadTopic). -/
def decodeLine : Bytes → Option lineStore
  | .enc (.lineRec l) => some l
  | _ => none

/-- Model of the store.Storage adapter: per-key contents (Get) and an oracle
saying whether a Set of given bytes at a given key fails. -/
structure Storage where
  contents : String → Except Err Bytes
  setErr : String → Bytes → Option Err

/-- Storage Get. -/
def Storage.get (s : Storage) (key : String) : Except Err Bytes :=
  s.contents key

/-- Contents of a storage after a successful Set of data under key. -/
def Storage.setContents (s : Storage) (key : String) (data : Bytes) : Storage :=
  { s with contents := fun k => if k = key then .ok data else s.contents k }

/-- Storage Set: on failure the contents are unchanged, on success the key is
bound to the new bytes. -/
def Storage.set (s : Storage) (key : String) (data : Bytes) :
    Except Err Storage :=
  match s.setErr key data with
  | some e => .error e
  | none => .ok (s.setContents key data)

/-- In-memory line state (struct line of the unavailable line.go). Modelled
from the spec: name, cursor (head), recycle timeout, in-flight map from
offset to absolute deadline. -/
structure line where
  name : String
  head : Nat
  recycle : Nat
  inflight : List (Nat × Nat)
  deriving Repr, DecidableEq

/-- In-memory topic state (struct topic of the unavailable topic.go). Fields
name, head, tail, lines, q, quit are fixed by their uses in uQueue.go;
messages are kept in memory (msgs, indexed by offset), which the spec allows;
started and quitClosed project the background goroutine and the quit
channel. -/
structure topic where
  name : String
  head : Nat
  tail : Nat
  lines : List (String × line)
  msgs : List (List Nat)
  started : Bool
  quitClosed : Bool
  deriving Repr, DecidableEq

/-- In-memory engine state (struct UnitedQueue of uQueue.go): the topic map,
the storage adapter, and a flag projecting storage.Close(). -/
structure UnitedQueue where
  topics : List (String × topic)
  storage : Storage
  storageClosed : Bool := false

/-- Function genQueueStore of uQueue.go: collect the topic names. -/
def genQueueStore (topics : List (String × topic)) : unitedQueueStore :=
  { Topics := topics.map (fun p => p.1) }

/-- Function exportQueue of uQueue.go: encode the engine record and Set it
under StorageKeyWord; any failure is returned. -/
def exportQueue (u : UnitedQueue) : Except Err UnitedQueue :=
  let queueStoreValue := genQueueStore u.topics
  match u.storage.set StorageKeyWord (encodeQueue queueStoreValue) with
  | .error e => .error e
  | .ok s => .ok { u with storage := s }

/-- Function newTopic of uQueue.go, the topic value it builds: empty line
map, head 0, tail 0, background loop started. -/
def mkNewTopic (name : String) : topic :=
  { name := name, lines := [], head := 0, tail := 0, msgs := [],
    started := true, quitClosed := false }

/-- Function newTopic of uQueue.go (it always returns a nil error). -/
def newTopic (name : String) : Except Err topic :=
  .ok (mkNewTopic name)

/-- Function createTopic of uQueue.go: fail if the name exists, otherwise
register the new topic, persist the name set via exportQueue, and on a
persistence failure delete the topic again and return the error. -/
def createTopic (u : UnitedQueue) (name : String) :
    Except Err Unit × UnitedQueue :=
  match alookup u.topics name with
  | some _ => (.error ErrTopicExisted, u)
  | none =>
    match newTopic name with
    | .error e => (.error e, u)
    | .ok t =>
      let u1 : UnitedQueue := { u with topics := aupdate u.topics name t }
      match exportQueue u1 with
      | .error e => (.error e, { u1 with topics := aerase u1.topics name })
      | .ok u2 => (.ok (), u2)

/-- Pop of struct line (line.go is unavailable). Modelled from the spec:
first redeliver the lowest-offset expired in-flight entry, resetting its
deadline; otherwise deliver the cursor offset when it is below the topic
tail, advancing the cursor and, when the recycle timeout is positive,
tracking the delivery in-flight; otherwise fail with No Message. -/
def line.pop (l : line) (topicTail : Nat) (now : Nat) :
    Except Err (Nat × line) :=
  match (l.inflight.filter (fun p => p.2 ≤ now)).foldl
      (fun acc p => match acc with
        | none => some p.1
        | some m => some (min m p.1)) none with
  | some o =>
      .ok (o, { l with inflight :=
          l.inflight.map fun p => if p.1 = o then (p.1, now + l.recycle) else p })
  | none =>
      if l.head < topicTail then
        .ok (l.head,
          if 0 < l.recycle then
            { l with head := l.head + 1,
                     inflight := l.inflight ++ [(l.head, now + l.recycle)] }
          else { l with head := l.head + 1 })
      else .error ErrNone

/-- Confirm of struct line (line.go is unavailable). Modelled from the spec:
remove the offset from the in-flight map when present, otherwise fail with
Message Not Delivered. -/
def line.confirm (l : line) (offset : Nat) : Except Err line :=
  if l.inflight.any (fun p => p.1 = offset) then
    .ok { l with inflight := l.inflight.filter (fun p => p.1 ≠ offset) }
  else .error ErrNotDelivered

/-- Push of struct topic (topic.go is unavailable). Modelled from the spec:
assign the offset tail, store the message in memory, increment tail, return
success. -/
def topic.Push (t : topic) (data : List Nat) : Except Err topic :=
  .ok { t with msgs := t.msgs ++ [data], tail := t.tail + 1 }

/-- Pop of struct topic (topic.go is unavailable). Modelled from the spec:
fail with Line Not Existed when the line is unknown, otherwise delegate to
the line and return the delivered offset and payload. -/
def topic.pop (t : topic) (now : Nat) (lineName : String) :
    Except Err (Nat × List Nat × topic) :=
  match alookup t.lines lineName with
  | none => .error ErrLineNotExisted
  | some l =>
    match l.pop t.tail now with
    | .error e => .error e
    | .ok (o, l1) =>
        .ok (o, t.msgs.getD o [], { t with lines := aupdate t.lines lineName l1 })

/-- Confirm of struct topic (topic.go is unavailable). Modelled from the
spec: fail with Line Not Existed when the line is unknown, otherwise delegate
to the line. -/
def topic.confirm (t : topic) (lineName : String) (offset : Nat) :
    Except Err topic :=
  match alookup t.lines lineName with
  | none => .error ErrLineNotExisted
  | some l =>
    match l.confirm offset with
    | .error e => .error e
    | .ok l1 => .ok { t with lines := aupdate t.lines lineName l1 }

/-- Record projected from a topic for persistence (genTopicStore of the
unavailable topic.go; the spec fixes the topic record to head, tail and the
line-name set). -/
def genTopicStore (t : topic) : topicStore :=
  { Head := t.head, Tail := t.tail, Lines := t.lines.map (fun p => p.1) }

/-- Record projected from a line for persistence. Modelled from the spec
line-record layout. -/
def genLineStore (l : line) : lineStore :=
  { Head := l.head, Recycle := l.recycle, Inflight := l.inflight }

/-- CreateLine of struct topic (topic.go is unavailable). Modelled from the
spec: fail with Line Has Existed when present; otherwise create a line whose
cursor starts at the current tail and persist the topic record with the
updated line-name set, reporting a persistence error to the caller. -/
def topic.CreateLine (t : topic) (lineName : String) (recycle : Nat)
    (s : Storage) : Except Err Unit × topic × Storage :=
  match alookup t.lines lineName with
  | some _ => (.error ErrLineExisted, t, s)
  | none =>
    let l : line := { name := lineName, head := t.tail, recycle := recycle,
                      inflight := [] }
    let t1 : topic := { t with lines := aupdate t.lines lineName l }
    match s.set t.name (encodeTopic (genTopicStore t1)) with
    | .error e => (.error e, t1, s)
    | .ok s1 => (.ok (), t1, s1)

/-- Function Create of uQueue.go: a non-empty line name selects line
creation on the named topic (Topic Not Existed when unknown); otherwise a
non-empty topic name selects topic creation; otherwise the request is
rejected with Key Illegal. -/
structure CreateRequest where
  TopicName : String
  LineName : String
  Recycle : Nat
  deriving Repr, DecidableEq

/-- Request of Confirm (entity.go is unavailable; the fields TopicName,
LineName, ID are fixed by their uses in uQueue.go). -/
structure ConfirmRequest where
  TopicName : String
  LineName : String
  ID : Nat
  deriving Repr, DecidableEq

/-- Body of the line branch of Create in uQueue.go: resolve the topic and
delegate to CreateLine. -/
def createLineBranch (u : UnitedQueue) (cr : CreateRequest) :
    Except Err Unit × UnitedQueue :=
  match alookup u.topics cr.TopicName with
  | none => (.error ErrTopicNotExisted, u)
  | some t =>
    match t.CreateLine cr.LineName cr.Recycle u.storage with
    | (r, t1, s1) =>
        (r, { u with topics := aupdate u.topics cr.TopicName t1, storage := s1 })

/-- Function Create of uQueue.go. -/
def Create (u : UnitedQueue) (cr : CreateRequest) :
    Except Err Unit × UnitedQueue :=
  if cr.LineName ≠ "" then
    createLineBranch u cr
  else if cr.TopicName ≠ "" then
    createTopic u cr.TopicName
  else
    (.error ErrKey, u)

/-- Function Push of uQueue.go: resolve the topic (Topic Not Existed when
unknown) and delegate. -/
def Push (u : UnitedQueue) (name : String) (data : List Nat) :
    Except Err Unit × UnitedQueue :=
  match alookup u.topics name with
  | none => (.error ErrTopicNotExisted, u)
  | some t =>
    match t.Push data with
    | .error e => (.error e, u)
    | .ok t1 => (.ok (), { u with topics := aupdate u.topics name t1 })

/-- Split of a character list at every slash, keeping empty segments:
the strings.Split(s, "/") loop of the Go standard library for the one-rune
separator used by Pop. -/
def splitSlashChars : List Char → List (List Char)
  | [] => [[]]
  | c :: rest =>
    if c = '/' then [] :: splitSlashChars rest
    else
      match splitSlashChars rest with
      | [] => [[c]]
      | seg :: segs => (c :: seg) :: segs

/-- Model of strings.Split(name, "/") as used by Pop of uQueue.go. -/
def splitOnSlash (name : String) : List String :=
  (splitSlashChars name.toList).map (fun cs => String.mk cs)

/-- Function Pop of uQueue.go: split the path on the slash, reject with Key
Illegal unless exactly two parts result, resolve the topic (Topic Not
Existed when unknown) and delegate to the topic pop. -/
def Pop (u : UnitedQueue) (now : Nat) (name : String) :
    Except Err (Nat × List Nat) × UnitedQueue :=
  match splitOnSlash name with
  | [tName, lName] =>
    (match alookup u.topics tName with
     | none => (.error ErrTopicNotExisted, u)
     | some t =>
       match t.pop now lName with
       | .error e => (.error e, u)
       | .ok (o, data, t1) =>
           (.ok (o, data), { u with topics := aupdate u.topics tName t1 }))
  | _ => (.error ErrKey, u)

/-- Function Confirm of uQueue.go: resolve the topic (Topic Not Existed when
unknown) and delegate to the topic confirm. -/
def Confirm (u : UnitedQueue) (cr : ConfirmRequest) :
    Except Err Unit × UnitedQueue :=
  match alookup u.topics cr.TopicName with
  | none => (.error ErrTopicNotExisted, u)
  | some t =>
    match t.confirm cr.LineName cr.ID with
    | .error e => (.error e, u)
    | .ok t1 => (.ok (), { u with topics := aupdate u.topics cr.TopicName t1 })

/-- LoadLine of struct topic (line.go is unavailable). Modelled from the
spec: rebuild the line from its persisted record; reloading never fails. -/
def loadLine (lineName : String) (lsv : lineStore) : Except Err line :=
  .ok { name := lineName, head := lsv.Head, recycle := lsv.Recycle,
        inflight := lsv.Inflight }

/-- Body of the line loop of loadTopic in uQueue.go: Get the topic/line key,
skip the line on a Get error, empty data, a decode failure or a loadLine
failure, otherwise add it to the line map. -/
def loadOneLine (s : Storage) (topicName : String)
    (lines : List (String × line)) (lineName : String) :
    List (String × line) :=
  let lineStoreKey := topicName ++ "/" ++ lineName
  match s.get lineStoreKey with
  | .error _ => lines
  | .ok lineStoreData =>
    if lineStoreData = .empty then lines
    else
      match decodeLine lineStoreData with
      | none => lines
      | some lsv =>
        match loadLine lineName lsv with
        | .error _ => lines
        | .ok l => aupdate lines lineName l

/-- Topic value built by loadTopic of uQueue.go: head and tail from the
stored record, lines loaded one by one with failures skipped, background
loop started. -/
def mkLoadedTopic (s : Storage) (topicName : String) (tsv : topicStore) :
    topic :=
  { name := topicName, head := tsv.Head, tail := tsv.Tail,
    lines := tsv.Lines.foldl (loadOneLine s topicName) [],
    msgs := [], started := true, quitClosed := false }

/-- Function loadTopic of uQueue.go (it always returns a nil error). -/
def loadTopic (u : UnitedQueue) (topicName : String) (tsv : topicStore) :
    Except Err topic :=
  .ok (mkLoadedTopic u.storage topicName tsv)

/-- Body of the topic loop of loadQueue in uQueue.go: Get the topic key,
skip the topic on a Get error, empty data, a decode failure or a loadTopic
failure, otherwise register it in the topic map. -/
def loadOneTopic (u : UnitedQueue) (topicName : String) : UnitedQueue :=
  match u.storage.get topicName with
  | .error _ => u
  | .ok topicStoreData =>
    if topicStoreData = .empty then u
    else
      match decodeTopic topicStoreData with
      | none => u
      | some tsv =>
        match loadTopic u topicName tsv with
        | .error _ => u
        | .ok t => { u with topics := aupdate u.topics topicName t }

/-- Function loadQueue of uQueue.go: Get the engine record; a Get error,
empty data or a decode failure just ends the load; otherwise each listed
topic is loaded in turn. Every path returns a nil error. -/
def loadQueue (u : UnitedQueue) : Except Err Unit × UnitedQueue :=
  match u.storage.get StorageKeyWord with
  | .error _ => (.ok (), u)
  | .ok unitedQueueStoreData =>
    if unitedQueueStoreData = .empty then (.ok (), u)
    else
      match decodeQueue unitedQueueStoreData with
      | none => (.ok (), u)
      | some qsv => (.ok (), qsv.Topics.foldl loadOneTopic u)

/-- Function NewUnitedQueue of uQueue.go: start from an empty topic map,
run loadQueue, and fail only when loadQueue fails. -/
def NewUnitedQueue (storage : Storage) : Except Err UnitedQueue :=
  let uq : UnitedQueue := { topics := [], storage := storage }
  match loadQueue uq with
  | (.error e, _) => .error e
  | (.ok _, u) => .ok u

/-- ExportLines of struct topic (topic.go is unavailable). Modelled from the
spec: write every owned line record; a failure is reported to the caller but
does not stop the sibling line exports (the first error is kept). -/
def topic.exportLines (t : topic) (s : Storage) : Except Err Unit × Storage :=
  t.lines.foldl
    (fun acc p =>
      match acc.2.set (t.name ++ "/" ++ p.1) (encodeLine (genLineStore p.2)) with
      | .error e => (match acc.1 with
          | .error e0 => (.error e0, acc.2)
          | .ok _ => (.error e, acc.2))
      | .ok s1 => (acc.1, s1))
    (.ok (), s)

/-- ExportTopic of struct topic (topic.go is unavailable). Modelled from the
spec: write the topic record under the topic-name key. -/
def topic.exportTopic (t : topic) (s : Storage) : Except Err Unit × Storage :=
  match s.set t.name (encodeTopic (genTopicStore t)) with
  | .error e => (.error e, s)
  | .ok s1 => (.ok (), s1)

/-- Body of the loop of exportTopics in uQueue.go: export the lines of one
topic, on an error continue with the next topic, otherwise also export the
topic record, again continuing on error. -/
def exportOneTopic (s : Storage) (t : topic) : Storage :=
  match t.exportLines s with
  | (.error _, s1) => s1
  | (.ok _, s1) => (t.exportTopic s1).2

/-- Function exportTopics of uQueue.go: export every topic, never aborting
on a per-topic error, and always return a nil error. -/
def exportTopics (u : UnitedQueue) : Except Err Unit × UnitedQueue :=
  let s1 := u.topics.foldl (fun s p => exportOneTopic s p.2) u.storage
  (.ok (), { u with storage := s1 })

/-- Function Close of uQueue.go: close the quit channel of every topic, run
exportTopics (an error is only logged), then close the storage adapter. -/
def Close (u : UnitedQueue) : UnitedQueue :=
  let u1 : UnitedQueue :=
    { u with topics := u.topics.map (fun p => (p.1, { p.2 with quitClosed := true })) }
  let u2 := (exportTopics u1).2
  { u2 with storageClosed := true }

/-- Storage that holds exactly the records the engine exports for the state
u: the engine record (the bytes exportQueue Sets under StorageKeyWord), each
registered topic record under its name, and each line record under its
topic/line key; every other key reads as not found, and writes always
succeed. -/
def roundStorage (u : UnitedQueue) : Storage :=
  { contents := fun k =>
      if k = StorageKeyWord then .ok (encodeQueue (genQueueStore u.topics))
      else
        match alookup u.topics k with
        | some t => .ok (encodeTopic (genTopicStore t))
        | none =>
          match splitOnSlash k with
          | [tn, ln] =>
            (match alookup u.topics tn with
             | some t =>
               (match alookup t.lines ln with
                | some l => .ok (encodeLine (genLineStore l))
                | none => .error "not found")
             | none => .error "not found")
          | _ => .error "not found",
    setErr := fun _ _ => none }

/-- Condition under which the topic loop of loadQueue skips a topic name:
its Get fails, or returns empty data, or returns bytes that do not decode as
a topic record. -/
def topicRecUnloadable (s : Storage) (name : String) : Prop :=
  (∃ e, s.get name = .error e)
  ∨ s.get name = .ok .empty
  ∨ (∃ d, s.get name = .ok d ∧ decodeTopic d = none)

/-- Condition under which the line loop of loadTopic skips a line name: its
Get fails, or returns empty data, or returns bytes that do not decode as a
line record. -/
def lineRecUnloadable (s : Storage) (topicName lineName : String) : Prop :=
  (∃ e, s.get (topicName ++ "/" ++ lineName) = .error e)
  ∨ s.get (topicName ++ "/" ++ lineName) = .ok .empty
  ∨ (∃ d, s.get (topicName ++ "/" ++ lineName) = .ok d ∧ decodeLine d = none)

/-- Storage with no readable key and always-succeeding writes. -/
def emptyStorage : Storage :=
  { contents := fun _ => .error "not found", setErr := fun _ _ => none }

/-- Storage with no readable key whose every write fails. -/
def failStorage : Storage :=
  { contents := fun _ => .error "not found", setErr := fun _ _ => some "disk full" }

/-- Fresh engine over the empty storage. -/
def uq0 : UnitedQueue := { topics := [], storage := emptyStorage }

/-- Fresh engine over the failing storage. -/
def uqFail : UnitedQueue := { topics := [], storage := failStorage }

/-- Engine holding one freshly created topic T. -/
def uq1 : UnitedQueue := { topics := [("T", mkNewTopic "T")], storage := emptyStorage }

/-- Sample line with a non-trivial cursor and one in-flight entry. -/
def sampleLine : line :=
  { name := "l", head := 3, recycle := 5, inflight := [(2, 9)] }

/-- Sample topic with non-trivial head and tail and one line. -/
def sampleTopic : topic :=
  { name := "T", head := 1, tail := 7, lines := [("l", sampleLine)],
    msgs := [], started := true, quitClosed := false }

/-- Engine holding the sample topic. -/
def uq2 : UnitedQueue := { topics := [("T", sampleTopic)], storage := emptyStorage }

/-- Storage listing two topics of which one has an unreadable record. -/
def partialStorage : Storage :=
  { contents := fun k =>
      if k = StorageKeyWord then .ok (encodeQueue { Topics := ["good", "bad"] })
      else if k = "good" then .ok (encodeTopic { Head := 0, Tail := 4, Lines := [] })
      else .error "not found",
    setErr := fun _ _ => none }

/-- Storage holding one readable line record of topic T. -/
def lineStorage : Storage :=
  { contents := fun k =>
      if k = "T/goodline" then .ok (encodeLine { Head := 0, Recycle := 0, Inflight := [] })
      else .error "not found",
    setErr := fun _ _ => none }

/-! Helper lemmas about the association-list model of Go maps. -/

theorem aerase_of_alookup_none {α : Type} {m : List (String × α)} {k : String}
    (h : alookup m k = none) : aerase m k = m := by
  induction m with
  | nil => rfl
  | cons p rest ih =>
    by_cases hk : p.1 = k
    · simp [alookup, hk] at h
    · simp only [alookup, hk, if_false] at h
      simp [aerase, List.filter_cons, hk] at ih ⊢
      exact ih h

theorem aerase_singleton_self {α : Type} (k : String) (v : α) :
    aerase [(k, v)] k = [] := by
  simp [aerase]

theorem aerase_aupdate_cancel {α : Type} {m : List (String × α)} {k : String}
    (v : α) (h : alookup m k = none) : aerase (aupdate m k v) k = m := by
  unfold aupdate aerase
  rw [List.filter_append]
  have h1 : aerase m k = m := aerase_of_alookup_none h
  unfold aerase at h1
  rw [h1, h1]
  simp

theorem alookup_append {α : Type} (xs ys : List (String × α)) (k : String) :
    alookup (xs ++ ys) k =
      match alookup xs k with
      | some v => some v
      | none => alookup ys k := by
  induction xs with
  | nil => simp [alookup]
  | cons p rest ih =>
    by_cases hk : p.1 = k
    · simp [alookup, hk]
    · simp [alookup, hk, ih]

theorem aupdate_of_alookup_none {α : Type} {m : List (String × α)} {k : String}
    (v : α) (h : alookup m k = none) : aupdate m k v = m ++ [(k, v)] := by
  unfold aupdate
  rw [aerase_of_alookup_none h]

theorem alookup_of_mem_nodup {α : Type} {m : List (String × α)}
    (hnd : (m.map (fun p => p.1)).Nodup) {p : String × α} (hp : p ∈ m) :
    alookup m p.1 = some p.2 := by
  induction m with
  | nil => cases hp
  | cons q rest ih =>
    rcases List.mem_cons.mp hp with hq | hrest
    · subst hq
      simp [alookup]
    · have hq1 : q.1 ≠ p.1 := by
        intro hcon
        have : p.1 ∈ rest.map (fun p => p.1) := List.mem_map_of_mem _ hrest
        rw [List.map_cons] at hnd
        exact (List.nodup_cons.mp hnd).1 (hcon ▸ this)
      have hnd2 : (rest.map (fun p => p.1)).Nodup := by
        rw [List.map_cons] at hnd
        exact (List.nodup_cons.mp hnd).2
      simp [alookup, hq1, ih hnd2 hrest]

/-! Helper lemmas classifying the errors of the topic and line delegates. -/

theorem line_pop_error {l : line} {topicTail now : Nat} {e : Err}
    (h : l.pop topicTail now = .error e) : e = ErrNone := by
  unfold line.pop at h
  split at h
  · simp at h
  · split at h
    · simp at h
    · simp at h
      exact h.symm

theorem topic_pop_error {t : topic} {now : Nat} {lName : String} {e : Err}
    (h : t.pop now lName = .error e) :
    e = ErrLineNotExisted ∨ e = ErrNone := by
  unfold topic.pop at h
  split at h
  · exact Or.inl ((Except.error.injEq _ _).mp h.symm)
  · split at h
    · rename_i heq
      cases h
      exact Or.inr (line_pop_error heq)
    · exact absurd h (by simp)

theorem line_confirm_error {l : line} {offset : Nat} {e : Err}
    (h : l.confirm offset = .error e) : e = ErrNotDelivered := by
  unfold line.confirm at h
  split at h
  · exact absurd h (by simp)
  · exact (Except.error.injEq _ _).mp h.symm

theorem topic_confirm_error {t : topic} {lName : String} {offset : Nat} {e : Err}
    (h : t.confirm lName offset = .error e) :
    e = ErrLineNotExisted ∨ e = ErrNotDelivered := by
  unfold topic.confirm at h
  split at h
  · exact Or.inl ((Except.error.injEq _ _).mp h.symm)
  · split at h
    · rename_i heq
      cases h
      exact Or.inr (line_confirm_error heq)
    · exact absurd h (by simp)

/-- C1: topic creation is all-or-nothing. For every engine state in which
the name is fresh, if the storage Set of the encoded topic-name record
issued by exportQueue fails with error e, then createTopic removes the
newly registered topic again (the topic map of the result equals its
pre-call value, and the storage is untouched), and the storage error e is
what createTopic, and hence Create, returns to the caller. -/
theorem createTopic_rollback_on_set_failure
    (u : UnitedQueue) (name : String) (r : Nat) (e : Err)
    (habs : alookup u.topics name = none)
    (hname : name ≠ "")
    (hfail : u.storage.setErr StorageKeyWord
      (encodeQueue (genQueueStore (aupdate u.topics name (mkNewTopic name)))) = some e) :
    createTopic u name = (.error e, u)
    ∧ Create u { TopicName := name, LineName := "", Recycle := r } = (.error e, u) := by
  have h1 : createTopic u name = (.error e, u) := by
    unfold createTopic
    rw [habs]
    simp only [newTopic, exportQueue, Storage.set, hfail]
    rw [aerase_aupdate_cancel _ habs]
  refine ⟨h1, ?_⟩
  unfold Create
  simp [hname, h1]

/-- Witness for C1 at a concrete engine whose storage rejects every write:
creating topic T fails with the storage error and leaves the engine as it
was. -/
theorem createTopic_rollback_on_set_failure_witness :
    createTopic uqFail "T" = (.error "disk full", uqFail)
    ∧ Create uqFail { TopicName := "T", LineName := "", Recycle := 0 } =
        (.error "disk full", uqFail) :=
  createTopic_rollback_on_set_failure uqFail "T" 0 "disk full" rfl (by decide) rfl

/-- C5: Create dispatches to exactly one branch. A request with a non-empty
line name runs the line-creation branch; a request with an empty line name
and a non-empty topic name runs createTopic; a request naming neither is
rejected with the Key Illegal error and the engine is unchanged. -/
theorem Create_dispatches_exactly_one_branch
    (u : UnitedQueue) (cr : CreateRequest) :
    (cr.LineName ≠ "" → Create u cr = createLineBranch u cr)
    ∧ (cr.LineName = "" → cr.TopicName ≠ "" → Create u cr = createTopic u cr.TopicName)
    ∧ (cr.LineName = "" → cr.TopicName = "" → Create u cr = (.error ErrKey, u)) := by
  refine ⟨?_, ?_, ?_⟩
  · intro h
    unfold Create
    simp [h]
  · intro h1 h2
    unfold Create
    simp [h1, h2]
  · intro h1 h2
    unfold Create
    simp [h1, h2]

/-- Witness for C5 at concrete requests: an all-empty request is rejected
with Key Illegal, a line-naming request runs the line branch, a topic-only
request runs createTopic. -/
theorem Create_dispatches_exactly_one_branch_witness :
    Create uq0 { TopicName := "", LineName := "", Recycle := 0 } = (.error ErrKey, uq0)
    ∧ Create uq0 { TopicName := "t", LineName := "l", Recycle := 0 } =
        createLineBranch uq0 { TopicName := "t", LineName := "l", Recycle := 0 }
    ∧ Create uq0 { TopicName := "t", LineName := "", Recycle := 0 } = createTopic uq0 "t" :=
  ⟨(Create_dispatches_exactly_one_branch uq0 _).2.2 rfl rfl,
   (Create_dispatches_exactly_one_branch uq0 _).1 (by decide),
   (Create_dispatches_exactly_one_branch uq0 _).2.1 rfl (by decide)⟩

/-- C10: a Create request with a non-empty line name and an empty topic
name takes the line branch, so when no topic is registered under the empty
name it fails with Topic Not Existed, not with Key Illegal, and the engine
is unchanged. -/
theorem Create_empty_topic_nonempty_line_topic_not_found
    (u : UnitedQueue) (lName : String) (r : Nat)
    (hl : lName ≠ "")
    (h0 : alookup u.topics "" = none) :
    Create u { TopicName := "", LineName := lName, Recycle := r } =
      (.error ErrTopicNotExisted, u)
    ∧ ErrTopicNotExisted ≠ ErrKey := by
  constructor
  · unfold Create createLineBranch
    simp [hl, h0]
  · decide

/-- Witness for C10: on the fresh engine, creating line l with an empty
topic name fails with Topic Not Existed. -/
theorem Create_empty_topic_nonempty_line_topic_not_found_witness :
    Create uq0 { TopicName := "", LineName := "l", Recycle := 0 } =
      (.error ErrTopicNotExisted, uq0)
    ∧ ErrTopicNotExisted ≠ ErrKey :=
  Create_empty_topic_nonempty_line_topic_not_found uq0 "l" 0 (by decide) rfl

/-- Lemma: loadQueue returns a nil error on every input. -/
theorem loadQueue_fst_ok (u : UnitedQueue) : (loadQueue u).1 = .ok () := by
  unfold loadQueue
  split
  · rfl
  · split
    · rfl
    · split <;> rfl

/-- C9: loadQueue reports success on every storage contents, so
NewUnitedQueue never fails because of stored state, and a storage whose
engine-record read errors yields a running engine with an empty topic
map. -/
theorem loadQueue_always_succeeds (s : Storage) :
    (loadQueue { topics := [], storage := s }).1 = .ok ()
    ∧ (∃ q, NewUnitedQueue s = .ok q)
    ∧ (∀ e, s.get StorageKeyWord = .error e →
        NewUnitedQueue s = .ok { topics := [], storage := s }) := by
  refine ⟨loadQueue_fst_ok _, ?_, ?_⟩
  · unfold NewUnitedQueue
    have h := loadQueue_fst_ok { topics := [], storage := s }
    rcases hq : loadQueue { topics := [], storage := s } with ⟨r, u1⟩
    rw [hq] at h
    simp at h
    subst h
    exact ⟨u1, by simp only [hq]⟩
  · intro e he
    unfold NewUnitedQueue loadQueue
    simp only [Storage.get] at he ⊢
    simp [he]

/-- Witness for C9: the unreadable empty storage yields the fresh engine
with an empty topic map. -/
theorem loadQueue_always_succeeds_witness :
    NewUnitedQueue emptyStorage = .ok { topics := [], storage := emptyStorage } :=
  (loadQueue_always_succeeds emptyStorage).2.2 "not found" rfl

/-- Counterexample to C6 as stated: on an engine whose storage rejects
writes, topic T is unregistered before the call, yet createTopic neither
registers it (it is rolled back) nor persists the name set; it returns the
storage error instead. -/
theorem createTopic_unconditional_success_counterexample :
    alookup uqFail.topics "T" = none
    ∧ alookup (createTopic uqFail "T").2.topics "T" = none
    ∧ (createTopic uqFail "T").1 = .error "disk full" :=
  ⟨rfl, rfl, rfl⟩

/-- C6 (amended): when topic T is registered, createTopic fails with Topic
Has Existed leaving the engine, its topic map and its storage untouched;
when T is unregistered and the storage write of the updated topic-name set
succeeds, createTopic registers a fresh topic with head 0 and tail 0 and
the storage then holds the encoded updated topic-name set under the engine
key. -/
theorem createTopic_exists_else_registers
    (u : UnitedQueue) (T : String) :
    (∀ t0, alookup u.topics T = some t0 →
        createTopic u T = (.error ErrTopicExisted, u))
    ∧ (alookup u.topics T = none →
        ∀ s1, u.storage.set StorageKeyWord
            (encodeQueue (genQueueStore (aupdate u.topics T (mkNewTopic T)))) = .ok s1 →
        createTopic u T =
          (.ok (), { topics := aupdate u.topics T (mkNewTopic T), storage := s1,
                     storageClosed := u.storageClosed })
        ∧ (mkNewTopic T).head = 0 ∧ (mkNewTopic T).tail = 0
        ∧ s1.contents StorageKeyWord =
            .ok (encodeQueue (genQueueStore (aupdate u.topics T (mkNewTopic T))))) := by
  constructor
  · intro t0 hs
    unfold createTopic
    rw [hs]
  · intro habs s1 hset
    refine ⟨?_, rfl, rfl, ?_⟩
    · unfold createTopic
      rw [habs]
      simp only [newTopic, exportQueue]
      rw [hset]
    · unfold Storage.set at hset
      split at hset
      · exact absurd hset (by simp)
      · have h1 := (Except.ok.injEq _ _).mp hset
        rw [← h1]
        simp [Storage.setContents]

/-- Witness for C6 at concrete engines: creating T again on an engine that
already holds T fails with Topic Has Existed and changes nothing; creating
T on the fresh engine over the empty storage registers it and persists the
name set. -/
theorem createTopic_exists_else_registers_witness :
    createTopic uq1 "T" = (.error ErrTopicExisted, uq1)
    ∧ (createTopic uq0 "T" =
        (.ok (), { topics := aupdate uq0.topics "T" (mkNewTopic "T"),
                   storage := emptyStorage.setContents StorageKeyWord
                     (encodeQueue (genQueueStore (aupdate uq0.topics "T" (mkNewTopic "T")))),
                   storageClosed := uq0.storageClosed })
      ∧ (mkNewTopic "T").head = 0 ∧ (mkNewTopic "T").tail = 0
      ∧ (emptyStorage.setContents StorageKeyWord
           (encodeQueue (genQueueStore (aupdate uq0.topics "T" (mkNewTopic "T"))))).contents
          StorageKeyWord =
          .ok (encodeQueue (genQueueStore (aupdate uq0.topics "T" (mkNewTopic "T"))))) :=
  ⟨(createTopic_exists_else_registers uq1 "T").1 (mkNewTopic "T") rfl,
   (createTopic_exists_else_registers uq0 "T").2 rfl _ rfl⟩

/-- Counterexample to C4 as stated: the path with an empty line segment
does not split into two non-empty segments, yet Pop does not reject it with
Key Illegal; it proceeds to the topic lookup and fails with Topic Not
Existed on the fresh engine. -/
theorem Pop_empty_segment_not_invalid_key :
    (Pop uq0 0 "t/").1 = .error ErrTopicNotExisted
    ∧ (Pop uq0 0 "t/").1 ≠ .error ErrKey := by
  constructor
  · rfl
  · intro h
    rw [show (Pop uq0 0 "t/").1 = .error ErrTopicNotExisted from rfl] at h
    exact absurd (Except.error.inj h) (by decide)

/-- C4 (amended): Pop fails with Key Illegal exactly when the path does not
split on the slash into exactly two segments; segments are allowed to be
empty, an empty topic or line segment passing the key check and proceeding
to the topic lookup. -/
theorem Pop_key_error_iff_two_segments (u : UnitedQueue) (now : Nat) (name : String) :
    (Pop u now name).1 = .error ErrKey ↔ (splitOnSlash name).length ≠ 2 := by
  unfold Pop
  rcases hsp : splitOnSlash name with _ | ⟨a, _ | ⟨b, _ | ⟨c, rest⟩⟩⟩
  · simp
  · simp
  · apply iff_of_false
    · intro h
      rcases halk : alookup u.topics a with _ | t
      · simp only [halk] at h
        exact absurd (Except.error.inj h) (by decide)
      · simp only [halk] at h
        rcases hp : t.pop now b with e | ⟨o, d2, t1⟩
        · simp only [hp] at h
          rcases topic_pop_error hp with he | he <;> rw [he] at h <;>
            exact absurd (Except.error.inj h) (by decide)
        · simp only [hp] at h
          exact absurd h (by simp)
    · simp
  · simp

/-- C7: topic resolution. When the topic is absent from the topic map, Push,
Confirm and (after a well-formed path) Pop fail with Topic Not Existed and
return the engine unchanged; when the topic is present each operation
delegates to it and its result is never the Topic Not Existed error. -/
theorem engine_topic_resolution
    (u : UnitedQueue) (now : Nat) (tN lN path : String) (d : List Nat) (o : Nat) :
    (alookup u.topics tN = none →
       Push u tN d = (.error ErrTopicNotExisted, u)
       ∧ Confirm u { TopicName := tN, LineName := lN, ID := o } = (.error ErrTopicNotExisted, u)
       ∧ (splitOnSlash path = [tN, lN] → Pop u now path = (.error ErrTopicNotExisted, u)))
    ∧ (∀ t, alookup u.topics tN = some t →
       (Push u tN d).1 ≠ .error ErrTopicNotExisted
       ∧ (Confirm u { TopicName := tN, LineName := lN, ID := o }).1 ≠ .error ErrTopicNotExisted
       ∧ (splitOnSlash path = [tN, lN] → (Pop u now path).1 ≠ .error ErrTopicNotExisted)) := by
  constructor
  · intro h
    refine ⟨?_, ?_, ?_⟩
    · simp only [Push, h]
    · simp only [Confirm, h]
    · intro hsp
      simp only [Pop, hsp, h]
  · intro t ht
    refine ⟨?_, ?_, ?_⟩
    · simp only [Push, ht, topic.Push]
      simp
    · rcases hc : t.confirm lN o with e | t1
      · simp only [Confirm, ht, hc]
        intro hcon
        rcases topic_confirm_error hc with he | he <;> rw [he] at hcon <;>
          exact absurd (Except.error.inj hcon) (by decide)
      · simp only [Confirm, ht, hc]
        simp
    · intro hsp
      rcases hp : t.pop now lN with e | ⟨o2, d2, t2⟩
      · simp only [Pop, hsp, ht, hp]
        intro hcon
        rcases topic_pop_error hp with he | he <;> rw [he] at hcon <;>
          exact absurd (Except.error.inj hcon) (by decide)
      · simp only [Pop, hsp, ht, hp]
        simp

/-- Witness for C7 at concrete engines: on the fresh empty engine the three
operations fail with Topic Not Existed, and on the engine holding topic T
none of them produces that error. -/
theorem engine_topic_resolution_witness :
    Push uq0 "t" [] = (.error ErrTopicNotExisted, uq0)
    ∧ Confirm uq0 { TopicName := "t", LineName := "l", ID := 0 } = (.error ErrTopicNotExisted, uq0)
    ∧ Pop uq0 0 "t/l" = (.error ErrTopicNotExisted, uq0)
    ∧ (Push uq1 "T" []).1 ≠ .error ErrTopicNotExisted
    ∧ (Confirm uq1 { TopicName := "T", LineName := "l", ID := 0 }).1 ≠ .error ErrTopicNotExisted
    ∧ (Pop uq1 0 "T/l").1 ≠ .error ErrTopicNotExisted :=
  ⟨((engine_topic_resolution uq0 0 "t" "l" "t/l" [] 0).1 rfl).1,
   ((engine_topic_resolution uq0 0 "t" "l" "t/l" [] 0).1 rfl).2.1,
   ((engine_topic_resolution uq0 0 "t" "l" "t/l" [] 0).1 rfl).2.2 (by decide),
   ((engine_topic_resolution uq1 0 "T" "l" "T/l" [] 0).2 (mkNewTopic "T") rfl).1,
   ((engine_topic_resolution uq1 0 "T" "l" "T/l" [] 0).2 (mkNewTopic "T") rfl).2.1,
   ((engine_topic_resolution uq1 0 "T" "l" "T/l" [] 0).2 (mkNewTopic "T") rfl).2.2 (by decide)⟩

/-- C8: Close marks every topic as signalled (its quit channel closed),
keeps the topic-name set intact, leaves the storage exactly as the
non-aborting per-topic export fold leaves it, and closes the storage
adapter unconditionally, whatever export errors occur. -/
theorem Close_signals_exports_closes (u : UnitedQueue) :
    (Close u).storageClosed = true
    ∧ (∀ p ∈ (Close u).topics, p.2.quitClosed = true)
    ∧ (Close u).topics.map (fun p => p.1) = u.topics.map (fun p => p.1)
    ∧ (Close u).storage =
        (u.topics.map (fun p => (p.1, { p.2 with quitClosed := true }))).foldl
          (fun s p => exportOneTopic s p.2) u.storage := by
  refine ⟨rfl, ?_, ?_, rfl⟩
  · intro p hp
    unfold Close exportTopics at hp
    simp at hp
    obtain ⟨a, b, hab, hpe⟩ := hp
    rw [← hpe]
  · unfold Close exportTopics
    simp

/-- Witness for C8 at the engine holding topic T over the empty storage:
the storage adapter ends closed and the registered topic ends with its quit
channel closed. -/
theorem Close_signals_exports_closes_witness :
    (Close uq1).storageClosed = true
    ∧ (("T", { mkNewTopic "T" with quitClosed := true }) :
        String × topic).2.quitClosed = true :=
  ⟨(Close_signals_exports_closes uq1).1,
   (Close_signals_exports_closes uq1).2.1
     ("T", { mkNewTopic "T" with quitClosed := true }) (by decide)⟩

/-! Helper lemmas about the behaviour of the per-topic and per-line steps of
startup recovery. -/

theorem loadOneTopic_bad {s : Storage} (acc : UnitedQueue) (hs : acc.storage = s)
    {b : String} (hbad : topicRecUnloadable s b) : loadOneTopic acc b = acc := by
  unfold loadOneTopic
  rw [hs]
  rcases hbad with ⟨e, he⟩ | he | ⟨d, hd, hdec⟩
  · rw [he]
  · rw [he]
    simp
  · rw [hd]
    by_cases hde : d = Bytes.empty
    · simp [hde]
    · simp [hde, hdec]

theorem loadOneTopic_good {s : Storage} (acc : UnitedQueue) (hs : acc.storage = s)
    {n : String} {r : topicStore} (hn : s.get n = .ok (encodeTopic r)) :
    loadOneTopic acc n =
      { acc with topics := aupdate acc.topics n (mkLoadedTopic s n r) } := by
  unfold loadOneTopic
  rw [hs, hn]
  simp [encodeTopic, decodeTopic, loadTopic, hs]

theorem loadOneLine_bad (s : Storage) (tn : String) (acc : List (String × line))
    {lb : String} (hbad : lineRecUnloadable s tn lb) :
    loadOneLine s tn acc lb = acc := by
  simp only [loadOneLine]
  rcases hbad with ⟨e, he⟩ | he | ⟨d, hd, hdec⟩
  · rw [he]
  · rw [he]
    simp
  · rw [hd]
    by_cases hde : d = Bytes.empty
    · simp [hde]
    · simp [hde, hdec]

theorem loadOneLine_good (s : Storage) (tn : String) (acc : List (String × line))
    {ln : String} {r : lineStore}
    (h : s.get (tn ++ "/" ++ ln) = .ok (encodeLine r)) :
    loadOneLine s tn acc ln =
      aupdate acc ln
        { name := ln, head := r.Head, recycle := r.Recycle, inflight := r.Inflight } := by
  simp only [loadOneLine]
  rw [h]
  simp [encodeLine, decodeLine, loadLine]

theorem load_fold_good (u : UnitedQueue) (ts : List (String × topic)) :
    ∀ (acc : UnitedQueue),
      acc.storage = roundStorage u →
      (∀ p ∈ ts, p.1 ≠ StorageKeyWord ∧ alookup u.topics p.1 = some p.2) →
      (∀ p ∈ ts, alookup acc.topics p.1 = none) →
      (ts.map (fun p => p.1)).Nodup →
      (List.foldl loadOneTopic acc (ts.map (fun p => p.1))).topics
        = acc.topics ++ ts.map (fun p =>
            (p.1, mkLoadedTopic (roundStorage u) p.1 (genTopicStore p.2))) := by
  induction ts with
  | nil =>
    intro acc _ _ _ _
    simp
  | cons p rest ih =>
    intro acc hs hgood hdisj hnd
    have hp := hgood p (List.mem_cons_self _ _)
    have hget : (roundStorage u).get p.1 = .ok (encodeTopic (genTopicStore p.2)) := by
      unfold roundStorage Storage.get
      simp [hp.1, hp.2]
    have hstep := loadOneTopic_good acc hs hget
    have hnotin : p.1 ∉ rest.map (fun q => q.1) := by
      rw [List.map_cons] at hnd
      exact (List.nodup_cons.mp hnd).1
    have hnd2 : (rest.map (fun q => q.1)).Nodup := by
      rw [List.map_cons] at hnd
      exact (List.nodup_cons.mp hnd).2
    rw [List.map_cons, List.foldl_cons, hstep]
    rw [aupdate_of_alookup_none _ (hdisj p (List.mem_cons_self _ _))]
    have hdisj2 : ∀ q ∈ rest,
        alookup (acc.topics ++
          [(p.1, mkLoadedTopic (roundStorage u) p.1 (genTopicStore p.2))]) q.1 = none := by
      intro q hq
      rw [alookup_append, hdisj q (List.mem_cons_of_mem _ hq)]
      have hq1 : p.1 ≠ q.1 := fun hcon => hnotin (hcon ▸ List.mem_map_of_mem _ hq)
      simp [alookup, hq1]
    have hrec := ih
      ⟨acc.topics ++ [(p.1, mkLoadedTopic (roundStorage u) p.1 (genTopicStore p.2))],
        acc.storage, acc.storageClosed⟩
      hs (fun q hq => hgood q (List.mem_cons_of_mem _ hq)) hdisj2 hnd2
    rw [hrec]
    simp

theorem load_fold_partial {s : Storage} {b : String}
    (hbad : topicRecUnloadable s b) (names : List String) :
    ∀ (acc : UnitedQueue),
      acc.storage = s →
      (∀ n ∈ names, n ≠ b → ∃ r, s.get n = .ok (encodeTopic r)) →
      (∀ n ∈ names, alookup acc.topics n = none) →
      names.Nodup →
      (List.foldl loadOneTopic acc names).topics.map (fun p => p.1)
        = acc.topics.map (fun p => p.1) ++ names.filter (fun n => n ≠ b) := by
  induction names with
  | nil =>
    intro acc _ _ _ _
    simp
  | cons n rest ih =>
    intro acc hs hgood hdisj hnd
    by_cases hb : n = b
    · subst hb
      rw [List.foldl_cons, loadOneTopic_bad acc hs hbad]
      rw [ih acc hs
        (fun q hq => hgood q (List.mem_cons_of_mem _ hq))
        (fun q hq => hdisj q (List.mem_cons_of_mem _ hq))
        (List.nodup_cons.mp hnd).2]
      simp
    · obtain ⟨r, hr⟩ := hgood n (List.mem_cons_self _ _) hb
      rw [List.foldl_cons, loadOneTopic_good acc hs hr]
      rw [aupdate_of_alookup_none _ (hdisj n (List.mem_cons_self _ _))]
      have hdisj2 : ∀ q ∈ rest,
          alookup (acc.topics ++ [(n, mkLoadedTopic s n r)]) q = none := by
        intro q hq
        rw [alookup_append, hdisj q (List.mem_cons_of_mem _ hq)]
        have hq1 : n ≠ q := fun hcon => (List.nodup_cons.mp hnd).1 (hcon ▸ hq)
        simp [alookup, hq1]
      have hrec := ih
        ⟨acc.topics ++ [(n, mkLoadedTopic s n r)], acc.storage, acc.storageClosed⟩
        hs (fun q hq hqb => hgood q (List.mem_cons_of_mem _ hq) hqb) hdisj2
        (List.nodup_cons.mp hnd).2
      rw [hrec]
      simp [List.filter_cons, hb]

theorem loadLines_fold_partial {s : Storage} {tn : String} {lb : String}
    (hbad : lineRecUnloadable s tn lb) (lnames : List String) :
    ∀ (acc : List (String × line)),
      (∀ n ∈ lnames, n ≠ lb → ∃ r, s.get (tn ++ "/" ++ n) = .ok (encodeLine r)) →
      (∀ n ∈ lnames, alookup acc n = none) →
      lnames.Nodup →
      (List.foldl (loadOneLine s tn) acc lnames).map (fun p => p.1)
        = acc.map (fun p => p.1) ++ lnames.filter (fun n => n ≠ lb) := by
  induction lnames with
  | nil =>
    intro acc _ _ _
    simp
  | cons n rest ih =>
    intro acc hgood hdisj hnd
    by_cases hb : n = lb
    · subst hb
      rw [List.foldl_cons, loadOneLine_bad s tn acc hbad]
      rw [ih acc
        (fun q hq => hgood q (List.mem_cons_of_mem _ hq))
        (fun q hq => hdisj q (List.mem_cons_of_mem _ hq))
        (List.nodup_cons.mp hnd).2]
      simp
    · obtain ⟨r, hr⟩ := hgood n (List.mem_cons_self _ _) hb
      rw [List.foldl_cons, loadOneLine_good s tn acc hr]
      rw [aupdate_of_alookup_none _ (hdisj n (List.mem_cons_self _ _))]
      have hdisj2 : ∀ q ∈ rest,
          alookup (acc ++
            ([(n, { name := n, head := r.Head, recycle := r.Recycle,
                    inflight := r.Inflight })] : List (String × line))) q = none := by
        intro q hq
        rw [alookup_append, hdisj q (List.mem_cons_of_mem _ hq)]
        have hq1 : n ≠ q := fun hcon => (List.nodup_cons.mp hnd).1 (hcon ▸ hq)
        simp [alookup, hq1]
      have hrec := ih
        (acc ++ [(n, { name := n, head := r.Head, recycle := r.Recycle,
                       inflight := r.Inflight })])
        (fun q hq hqb => hgood q (List.mem_cons_of_mem _ hq) hqb) hdisj2
        (List.nodup_cons.mp hnd).2
      rw [hrec]
      simp [List.filter_cons, hb]

/-- C2: export and reload round-trip. For every engine state whose topic
names are distinct and none of which is the reserved engine key, running
loadQueue against a storage that holds the engine record exportQueue
encodes plus every exported topic and line record rebuilds a topic map with
the same topic names, each loaded topic carrying the head and tail of its
stored record. -/
theorem export_load_round_trip (u : UnitedQueue)
    (hnd : (u.topics.map (fun p => p.1)).Nodup)
    (hkey : ∀ p ∈ u.topics, p.1 ≠ StorageKeyWord) :
    ((loadQueue { topics := [], storage := roundStorage u }).2.topics).map
        (fun p => (p.1, p.2.head, p.2.tail))
      = u.topics.map (fun p => (p.1, p.2.head, p.2.tail)) := by
  have hload : loadQueue { topics := [], storage := roundStorage u }
      = (.ok (), List.foldl loadOneTopic { topics := [], storage := roundStorage u }
          (u.topics.map (fun p => p.1))) := by
    simp [loadQueue, Storage.get, roundStorage, encodeQueue, decodeQueue, genQueueStore]
  have hfold := load_fold_good u u.topics ⟨[], roundStorage u, false⟩ rfl
    (fun p hp => ⟨hkey p hp, alookup_of_mem_nodup hnd hp⟩)
    (fun p _ => rfl) hnd
  rw [hload]
  simp only [hfold]
  simp [List.map_map, mkLoadedTopic, genTopicStore]

/-- Witness for C2 at the engine holding the sample topic with head 1,
tail 7 and one line. -/
theorem export_load_round_trip_witness :
    ((loadQueue { topics := [], storage := roundStorage uq2 }).2.topics).map
        (fun p => (p.1, p.2.head, p.2.tail))
      = uq2.topics.map (fun p => (p.1, p.2.head, p.2.tail)) :=
  export_load_round_trip uq2 (by decide) (by decide)

/-- C3: startup recovery tolerates partial failure. If the engine record
lists some topic names of which exactly one is unreadable (Get error, empty
data or undecodable bytes), loadQueue still succeeds and loads exactly the
other listed topics; likewise, inside one topic, an unreadable line record
is skipped while every other listed line is loaded. -/
theorem recovery_partial_failure_tolerant :
    (∀ (s : Storage) (names : List String) (b : String),
        s.get StorageKeyWord = .ok (encodeQueue { Topics := names }) →
        names.Nodup →
        topicRecUnloadable s b →
        (∀ n ∈ names, n ≠ b → ∃ r, s.get n = .ok (encodeTopic r)) →
        (loadQueue { topics := [], storage := s }).1 = .ok ()
        ∧ ((loadQueue { topics := [], storage := s }).2.topics).map (fun p => p.1)
            = names.filter (fun n => n ≠ b))
    ∧ (∀ (s : Storage) (tn : String) (tsv : topicStore) (lb : String),
        tsv.Lines.Nodup →
        lineRecUnloadable s tn lb →
        (∀ n ∈ tsv.Lines, n ≠ lb → ∃ r, s.get (tn ++ "/" ++ n) = .ok (encodeLine r)) →
        ((mkLoadedTopic s tn tsv).lines).map (fun p => p.1)
            = tsv.Lines.filter (fun n => n ≠ lb)) := by
  constructor
  · intro s names b hq hnd hbad hgood
    have hload : loadQueue { topics := [], storage := s }
        = (.ok (), List.foldl loadOneTopic { topics := [], storage := s } names) := by
      simp [loadQueue, hq, encodeQueue, decodeQueue]
    rw [hload]
    refine ⟨rfl, ?_⟩
    have hfold := load_fold_partial hbad names ⟨[], s, false⟩ rfl hgood
      (fun n _ => rfl) hnd
    simpa using hfold
  · intro s tn tsv lb hnd hbad hgood
    have hfold := loadLines_fold_partial hbad tsv.Lines [] hgood
      (fun n _ => rfl) hnd
    simpa [mkLoadedTopic] using hfold

/-- Witness for C3 at concrete storages: of the two listed topics good and
bad only good is loaded, and of the two listed lines of topic T only
goodline is loaded. -/
theorem recovery_partial_failure_tolerant_witness :
    ((loadQueue { topics := [], storage := partialStorage }).2.topics).map (fun p => p.1)
      = List.filter (fun n => n ≠ "bad") ["good", "bad"]
    ∧ ((mkLoadedTopic lineStorage "T"
          { Head := 0, Tail := 0, Lines := ["goodline", "badline"] }).lines).map (fun p => p.1)
      = List.filter (fun n => n ≠ "badline") ["goodline", "badline"] := by
  constructor
  · exact (recovery_partial_failure_tolerant.1 partialStorage ["good", "bad"] "bad"
      rfl (by decide) (Or.inl ⟨"not found", rfl⟩)
      (by
        intro n hn hne
        rcases List.mem_cons.mp hn with rfl | hn2
        · exact ⟨{ Head := 0, Tail := 4, Lines := [] }, rfl⟩
        · rcases List.mem_cons.mp hn2 with rfl | hn3
          · exact absurd rfl hne
          · cases hn3)).2
  · exact recovery_partial_failure_tolerant.2 lineStorage "T"
      { Head := 0, Tail := 0, Lines := ["goodline", "badline"] } "badline"
      (by decide) (Or.inl ⟨"not found", rfl⟩)
      (by
        intro n hn hne
        rcases List.mem_cons.mp hn with rfl | hn2
        · exact ⟨{ Head := 0, Recycle := 0, Inflight := [] }, rfl⟩
        · rcases List.mem_cons.mp hn2 with rfl | hn3
          · exact absurd rfl hne
          · cases hn3)

end UQ
